import Mathlib

/-!
# Verification of `spyder_notebook/utils/servermanager.py`

A shallow embedding of the `ServerManager` module: a manager that routes
notebook-rendering requests to notebook-server processes, starts new
processes on demand, polls a side-channel descriptor file for readiness
(bounded by a timeout), and shuts servers down in bulk.

External collaborators (the OS path library, the process launcher, the Qt
timer, the Jupyter runtime directory and the JSON parser) are modelled as
explicit parameters: path normalization follows CPython's `posixpath`
(`abspath`, `normpath`, `join`, `dirname`), the readiness probe is a
function from wall-clock time (in milliseconds) to a probe outcome, and
the deferred scheduler is modelled by the recursion in `run_checks`, each
tick advancing the clock by the scheduling delay.
-/

namespace ServerManagerSpec

/-! ## String primitives (Python `str` methods, over the character list)

Python strings are sequences of characters; the methods the source uses
are modelled over the `List Char` underlying a Lean `String`, so that
every definition evaluates by kernel reduction. -/

/-- Python `s.startswith(pre)`. -/
def startswith (s pre : String) : Bool := pre.data.isPrefixOf s.data

/-- Python `s.endswith(suf)`. -/
def endswith (s suf : String) : Bool := suf.data.isSuffixOf s.data

/-- Python `s.split('/')`: split on every slash, keeping empty pieces
(so `''.split('/') == ['']` and `'a//b'.split('/') == ['a','','b']`). -/
def splitSlash (l : List Char) : List (List Char) :=
  l.foldr
    (fun ch acc =>
      if ch = '/' then [] :: acc
      else
        match acc with
        | h :: t => (ch :: h) :: t
        | [] => [[ch]])
    [[]]

/-- Python `'/'.join(pieces)`. -/
def joinSlash (ls : List (List Char)) : List Char :=
  (List.intersperse ['/'] ls).flatten

/-! ## Path utilities (CPython `posixpath`, used via `os.path`) -/

/-- `posixpath.isabs`: a path is absolute iff it starts with a slash. -/
def isabs (p : String) : Bool := startswith p "/"

/-- `posixpath.join` restricted to two arguments, as used by `abspath`:
if `b` is absolute it replaces `a`; otherwise it is appended, inserting a
separator unless `a` is empty or already ends in one. -/
def join (a b : String) : String :=
  if startswith b "/" then b
  else if a = "" ∨ endswith a "/" then a ++ b
  else a ++ "/" ++ b

/-- One step of `posixpath.normpath`'s component loop: skip empty and `"."`
components, append ordinary components, and let `".."` pop the previous
component when one is available (unless the path is relative and empty so
far, or the previous component is itself an unresolved `".."`). -/
def normpathStep (initialSlashes : Nat) (acc : List String) (comp : String) :
    List String :=
  if comp = "" ∨ comp = "." then acc
  else if comp ≠ ".." ∨ (initialSlashes = 0 ∧ acc = []) ∨
      acc.getLast? = some ".." then acc ++ [comp]
  else if acc ≠ [] then acc.dropLast
  else acc

/-- `posixpath.normpath`: collapse repeated separators and resolve `"."`
and `".."` components textually (without consulting the filesystem). -/
def normpath (path : String) : String :=
  if path = "" then "." else
  let initialSlashes : Nat :=
    if startswith path "/" then
      if startswith path "//" ∧ ¬ startswith path "///" then 2 else 1
    else 0
  let comps : List String := (splitSlash path.data).map (fun l => ⟨l⟩)
  let newComps := comps.foldl (normpathStep initialSlashes) []
  let joined : String :=
    ⟨List.replicate initialSlashes '/' ++ joinSlash (newComps.map String.data)⟩
  if joined = "" then "." else joined

/-- `posixpath.abspath`: join with the current working directory when the
path is relative, then normalize. -/
def abspath (cwd path : String) : String :=
  if isabs path then normpath path else normpath (join cwd path)

/-- `posixpath.dirname`: everything up to (but not including) the final
slash, with trailing slashes stripped unless the head is all slashes. -/
def dirname (p : String) : String :=
  let cs := p.data
  let head := (cs.reverse.dropWhile (fun c => c ≠ '/')).reverse
  if head ≠ [] ∧ head.any (fun c => c ≠ '/') then
    String.mk ((head.reverse.dropWhile (fun c => c = '/')).reverse)
  else
    String.mk head

/-! ## Data model (`ServerState`, `ServerProcess`, `ServerManager`) -/

/-- `ServerState`: state of a server process (lines 39-46 of the source). -/
inductive ServerState where
  | STARTING
  | RUNNING
  | FINISHED
  | ERROR
  | TIMED_OUT
deriving DecidableEq, Repr

/-- The parsed contents of the `nbserver-<pid>.json` descriptor file:
a JSON mapping with keys like `url` and `token`, modelled as an
association list of string pairs. -/
def ServerInfo := List (String × String)
deriving DecidableEq, Repr

/-- `ServerProcess`: data record for one process executing a notebook
server. The `pid` field stands for the underlying `QProcess` (only its
`processId()` is ever consulted); `starttime` is wall-clock time in
milliseconds. -/
structure ServerProcess where
  pid : Nat
  notebook_dir : String
  starttime : Nat
  state : ServerState
  server_info : Option ServerInfo
deriving DecidableEq, Repr

/-- The state of a `ServerManager`: the ordered list of managed servers.
(`dark_theme` only influences the spawned command line, which the claims
do not mention, so it is omitted from the state.) -/
structure Manager where
  servers : List ServerProcess
deriving DecidableEq, Repr

/-- Environment supplied by external collaborators: the working directory
(used by `osp.abspath`) and the user's home directory (`get_home_dir()`). -/
structure Env where
  cwd : String
  home_dir : String
deriving DecidableEq, Repr

/-- Record of one spawned server process: `process.start(...)` together
with the `--notebook-dir` it was given. -/
structure SpawnedProcess where
  pid : Nat
  nbdir : String
deriving DecidableEq, Repr

/-- Delay between readiness checks, in ms (`CHECK_SERVER_UP_DELAY`). -/
def CHECK_SERVER_UP_DELAY : Nat := 250

/-- Timeout before giving up on server startup, in s (`SERVER_TIMEOUT_DELAY`). -/
def SERVER_TIMEOUT_DELAY : Nat := 30

/-! ## `start_server` and `get_server` -/

/-- The serving-directory computation at the top of
`ServerManager.start_server` (lines 169-173): a plain string-prefix test
against the home directory selects the home directory itself, otherwise
the parent directory of the filename is used. -/
def nbdir_for (home_dir filename : String) : String :=
  if startswith filename home_dir then home_dir else dirname filename

/-- `ServerManager.start_server` (lines 155-197): compute the serving
directory, spawn a process for it, and append a new `ServerProcess` in
`STARTING` state with the current time as `starttime` and no server info.
The fresh `pid` and the current time `now` are supplied by the
environment. (The synchronous first readiness check that the source
performs on line 197 is modelled as tick 0 of `run_checks`.) -/
def start_server (env : Env) (now pid : Nat) (m : Manager)
    (filename : String) : Manager × SpawnedProcess :=
  let nbdir := nbdir_for env.home_dir filename
  let sp : ServerProcess :=
    { pid := pid, notebook_dir := nbdir, starttime := now,
      state := ServerState.STARTING, server_info := none }
  ({ servers := m.servers ++ [sp] }, { pid := pid, nbdir := nbdir })

/-- The `for server in self.servers` loop of `ServerManager.get_server`
(lines 143-150): scan in insertion order; on the first entry whose
`notebook_dir` is a string prefix of the filename, return the loop's
result (`some (server_info)` for a `RUNNING` entry, `some none` for a
`STARTING` one); entries in other states fall through and the scan
continues; `none` means the loop completed without returning. -/
def scan_servers (filename : String) : List ServerProcess →
    Option (Option ServerInfo)
  | [] => none
  | s :: rest =>
    if startswith filename s.notebook_dir then
      if s.state = ServerState.RUNNING then some s.server_info
      else if s.state = ServerState.STARTING then some none
      else scan_servers filename rest
    else scan_servers filename rest

/-- `ServerManager.get_server` (lines 120-153): normalize the filename
with `abspath`, scan the servers, and if no entry answers and `start` is
true, call `start_server`. Returns the `dict or None` result, the updated
manager, and the spawned process if any. -/
def get_server (env : Env) (now pid : Nat) (m : Manager) (filename : String)
    (start : Bool) : Option ServerInfo × Manager × Option SpawnedProcess :=
  let fn := abspath env.cwd filename
  match scan_servers fn m.servers with
  | some r => (r, m, none)
  | none =>
    if start then
      let (m2, spawned) := start_server env now pid m fn
      (none, m2, some spawned)
    else (none, m, none)

/-! ## The readiness check (`_check_server_started`) and the polling loop -/

/-- Qt signals emitted by the manager (`sig_server_started`,
`sig_server_timed_out`). -/
inductive Signal where
  | server_started
  | server_timed_out
deriving DecidableEq, Repr

/-- Outcome of one attempt to open and parse the descriptor file
`nbserver-<pid>.json` in the Jupyter runtime directory:
* `ok info` — the file was opened and `json.load` succeeded;
* `os_error` — `open` (or the read) raised `OSError`, e.g. the file does
  not exist yet;
* `parse_error` — the file was opened but `json.load` raised a decode
  error (`json.JSONDecodeError`, a `ValueError`, not an `OSError`). -/
inductive ProbeResult where
  | ok (info : ServerInfo)
  | os_error
  | parse_error
deriving DecidableEq, Repr

/-- Observable actions performed by one readiness check, in program
order: field assignments on the `ServerProcess`, signal emissions, and
`QTimer.singleShot` reschedules. -/
inductive Event where
  | set_state (s : ServerState)
  | set_server_info (i : ServerInfo)
  | emit (sig : Signal)
  | schedule_check (delay : Nat)
deriving DecidableEq, Repr

/-- How one readiness check ended, when it did not raise. -/
inductive TickResult where
  | became_running
  | became_timed_out
  | rescheduled (delay : Nat)
deriving DecidableEq, Repr

/-- `ServerManager._check_server_started` (lines 199-238), executed at
wall-clock time `now` (ms) with probe outcome `probe`. The `try` block
catches only `OSError`: on `os_error` the elapsed time since `starttime`
decides between the timeout transition and a reschedule after
`CHECK_SERVER_UP_DELAY`; on `parse_error` the exception is not caught and
propagates to the caller (`Except.error`); on success the state becomes
`RUNNING`, `server_info` is filled in, and `sig_server_started` is
emitted, in that order. -/
def check_server_started (probe : ProbeResult) (now : Nat)
    (sp : ServerProcess) :
    Except Unit (ServerProcess × List Event × TickResult) :=
  match probe with
  | ProbeResult.ok info =>
    Except.ok
      ({ sp with state := ServerState.RUNNING, server_info := some info },
       [Event.set_state ServerState.RUNNING, Event.set_server_info info,
        Event.emit Signal.server_started],
       TickResult.became_running)
  | ProbeResult.os_error =>
    if now - sp.starttime > SERVER_TIMEOUT_DELAY * 1000 then
      Except.ok
        ({ sp with state := ServerState.TIMED_OUT },
         [Event.set_state ServerState.TIMED_OUT,
          Event.emit Signal.server_timed_out],
         TickResult.became_timed_out)
    else
      Except.ok
        (sp, [Event.schedule_check CHECK_SERVER_UP_DELAY],
         TickResult.rescheduled CHECK_SERVER_UP_DELAY)
  | ProbeResult.parse_error => Except.error ()

/-- `_check_server_started` acting on the server at index `idx` of the
manager's list (the tick's closure captures one particular
`ServerProcess`; mutation of that object is modelled by `List.set`). -/
def check_server_started_in (probe : ProbeResult) (now : Nat) (m : Manager)
    (idx : Nat) : Except Unit (Manager × List Event) :=
  match m.servers.get? idx with
  | none => Except.ok (m, [])
  | some sp =>
    (check_server_started probe now sp).map
      (fun r => ({ servers := m.servers.set idx r.1 }, r.2.1))

/-- How the polling loop for one entry ended. -/
inductive RunOutcome where
  | running (at_time : Nat)
  | timed_out (at_time : Nat)
  | exn (at_time : Nat)
  | fuel_exhausted
deriving DecidableEq, Repr

/-- The polling loop for one `ServerProcess`: the chain of
`_check_server_started` executions starting at time `now` (the first
check is the synchronous call on line 197 of `start_server`), each
reschedule firing the next check after the scheduled delay. `probe` gives
the descriptor-file outcome as a function of wall-clock time; `fuel`
bounds the number of ticks modelled (the source recursion is bounded in
reality by the timeout). Returns the outcome, the final `ServerProcess`,
and the concatenated event trace. -/
def run_checks (probe : Nat → ProbeResult) :
    Nat → Nat → ServerProcess → RunOutcome × ServerProcess × List Event
  | _, 0, sp => (RunOutcome.fuel_exhausted, sp, [])
  | now, fuel + 1, sp =>
    match check_server_started (probe now) now sp with
    | Except.error _ => (RunOutcome.exn now, sp, [])
    | Except.ok (sp', evs, TickResult.became_running) =>
      (RunOutcome.running now, sp', evs)
    | Except.ok (sp', evs, TickResult.became_timed_out) =>
      (RunOutcome.timed_out now, sp', evs)
    | Except.ok (sp', evs, TickResult.rescheduled d) =>
      let r := run_checks probe (now + d) fuel sp'
      (r.1, r.2.1, evs ++ r.2.2)

/-! ## `shutdown_all_servers` -/

/-- The body of the `for` loop of `ServerManager.shutdown_all_servers`
(lines 242-247) for one server: a `RUNNING` server has
`notebookapp.shutdown_server(server.server_info)` called on it (recorded
as a request) and its state set to `FINISHED`; all other servers are
untouched. -/
def shutdown_one (s : ServerProcess) :
    ServerProcess × List (Option ServerInfo) :=
  if s.state = ServerState.RUNNING then
    ({ s with state := ServerState.FINISHED }, [s.server_info])
  else (s, [])

/-- `ServerManager.shutdown_all_servers` (lines 240-247): iterate over
all servers in order; returns the updated manager and the list of
shutdown requests issued (the `server_info` passed to
`notebookapp.shutdown_server`, one per acted-on entry, in order). -/
def shutdown_all_servers (m : Manager) :
    Manager × List (Option ServerInfo) :=
  ({ servers := m.servers.map (fun s => (shutdown_one s).1) },
   m.servers.flatMap (fun s => (shutdown_one s).2))

/-! ## Comparison definition from the spec's words -/

/-- Path-segment-aware directory containment, following the spec's words
("a path-segment-aware containment check"): `d` owns `f` iff `f` is `d`
itself or lies below `d` across a separator boundary. This definition is
written from the spec, for comparison with the plain string-prefix test
the source actually performs. -/
def segment_contains (d f : String) : Bool :=
  d == f || startswith f (d ++ "/")

/-! ## Fixtures -/

/-- A sample parsed descriptor, with the `url` and `token` keys the spec
mentions. -/
def sampleInfo : ServerInfo :=
  [("url", "http://localhost:8888/"), ("token", "secret")]

/-- A sample environment: working directory `/cwd`, home `/home/user`. -/
def env₀ : Env := ⟨"/cwd", "/home/user"⟩

/-- A freshly registered server process, as `start_server` creates it. -/
def spW : ServerProcess := ⟨1, "/d", 0, ServerState.STARTING, none⟩

/-! ## Helper lemmas -/

/-- If `find?` locates the first server whose `notebook_dir` is a string
prefix of `fn`, then the `get_server` scan answers for it when it is
`RUNNING` or `STARTING`. -/
theorem scan_servers_find? (fn : String) (l : List ServerProcess)
    (s : ServerProcess)
    (hfind : l.find? (fun x => startswith fn x.notebook_dir) = some s) :
    (s.state = ServerState.RUNNING → scan_servers fn l = some s.server_info) ∧
    (s.state = ServerState.STARTING → scan_servers fn l = some none) := by
  induction l with
  | nil => simp at hfind
  | cons a t ih =>
    by_cases hp : startswith fn a.notebook_dir
    · simp only [List.find?_cons, hp, cond_true] at hfind
      obtain rfl : a = s := by simpa using hfind
      constructor <;> intro hs <;> simp [scan_servers, hp, hs]
    · have hp' : startswith fn a.notebook_dir = false := by simpa using hp
      simp only [List.find?_cons, hp', cond_false] at hfind
      have h := ih hfind
      refine ⟨fun hs => ?_, fun hs => ?_⟩ <;> simp [scan_servers, hp']
      · exact h.1 hs
      · exact h.2 hs

/-! ## Claims -/

/-- C1: `get_server` normalizes the filename with `abspath` and scans the
servers in insertion order; if the first entry whose `notebook_dir` is a
string prefix of the normalized filename is `RUNNING`, the call returns
that entry's `server_info`, leaves the manager unchanged and launches
nothing; if that entry is `STARTING`, the call returns `none`, again with
no launch and no change. -/
theorem get_server_first_match (env : Env) (now pid : Nat) (m : Manager)
    (filename : String) (start : Bool) (s : ServerProcess)
    (hfind : m.servers.find?
      (fun x => startswith (abspath env.cwd filename) x.notebook_dir)
      = some s) :
    (s.state = ServerState.RUNNING →
      get_server env now pid m filename start = (s.server_info, m, none)) ∧
    (s.state = ServerState.STARTING →
      get_server env now pid m filename start = (none, m, none)) := by
  have h := scan_servers_find? (abspath env.cwd filename) m.servers s hfind
  constructor <;> intro hs
  · simp [get_server, h.1 hs]
  · simp [get_server, h.2 hs]

/-- Witness for C1: on a manager holding one `RUNNING` server for
`/home/a`, requesting `/home/a/file` returns that server's info with no
launch; with the entry `STARTING` instead, the request returns `none`. -/
theorem get_server_first_match_witness :
    get_server env₀ 0 2 ⟨[⟨1, "/home/a", 0, ServerState.RUNNING,
        some sampleInfo⟩]⟩ "/home/a/file" true
      = (some sampleInfo,
         ⟨[⟨1, "/home/a", 0, ServerState.RUNNING, some sampleInfo⟩]⟩,
         none) :=
  (get_server_first_match env₀ 0 2
    ⟨[⟨1, "/home/a", 0, ServerState.RUNNING, some sampleInfo⟩]⟩
    "/home/a/file" true
    ⟨1, "/home/a", 0, ServerState.RUNNING, some sampleInfo⟩
    (by decide)).1 (by decide)

/-- C4: the directory match in `get_server` is a plain string-prefix
test, not a path-segment-aware containment check: a `RUNNING` entry with
`notebook_dir` `/home/a` answers the request for `/home/ab/file`, even
though `/home/a` does not contain `/home/ab/file` segment-wise. -/
theorem get_server_prefix_match_not_segment_aware :
    get_server env₀ 0 2 ⟨[⟨1, "/home/a", 0, ServerState.RUNNING,
        some sampleInfo⟩]⟩ "/home/ab/file" true
      = (some sampleInfo,
         ⟨[⟨1, "/home/a", 0, ServerState.RUNNING, some sampleInfo⟩]⟩,
         none) ∧
    segment_contains "/home/a" "/home/ab/file" = false := by
  constructor
  · rfl
  · decide

/-- C8 counterexample: with home directory `/home/user`, the filename
`/home/userX/nb.ipynb` does not lie under the home directory (no path
segment boundary), so the claim requires the serving directory to be the
immediate parent `/home/userX`; the code's plain string-prefix test picks
the home directory `/home/user` instead. -/
theorem serving_dir_home_prefix_cex :
    nbdir_for "/home/user" "/home/userX/nb.ipynb" = "/home/user" ∧
    (start_server env₀ 0 1 ⟨[]⟩ "/home/userX/nb.ipynb").2.nbdir
      = "/home/user" ∧
    segment_contains "/home/user" "/home/userX/nb.ipynb" = false ∧
    dirname "/home/userX/nb.ipynb" = "/home/userX" ∧
    ("/home/user" : String) ≠ "/home/userX" := by
  refine ⟨by decide, by decide, by decide, by decide, by decide⟩

/-- C8 (amended): `start_server` computes the serving directory with a
plain string-prefix test against the home directory: if the filename
starts with the home-directory string the serving directory is the home
directory itself, otherwise it is the immediate parent directory
(`dirname`) of the filename; `/home/user/notes/nb.ipynb` with home
`/home/user` resolves to `/home/user` and `/data/proj/nb.ipynb` resolves
to `/data/proj`. -/
theorem start_server_serving_dir (env : Env) (now pid : Nat) (m : Manager)
    (f : String) :
    (start_server env now pid m f).2.nbdir = nbdir_for env.home_dir f ∧
    (start_server env now pid m f).1.servers =
      m.servers ++ [⟨pid, nbdir_for env.home_dir f, now,
        ServerState.STARTING, none⟩] ∧
    (startswith f env.home_dir = true →
      nbdir_for env.home_dir f = env.home_dir) ∧
    (startswith f env.home_dir = false →
      nbdir_for env.home_dir f = dirname f) ∧
    nbdir_for "/home/user" "/home/user/notes/nb.ipynb" = "/home/user" ∧
    nbdir_for "/home/user" "/data/proj/nb.ipynb" = "/data/proj" := by
  refine ⟨rfl, rfl, fun h => ?_, fun h => ?_, by decide, by decide⟩
  · simp [nbdir_for, h]
  · simp [nbdir_for, h]

/-- Witness for C8's amended theorem: `/data/proj/nb.ipynb` does not
start with `/home/user`, and its serving directory is its parent. -/
theorem start_server_serving_dir_witness :
    nbdir_for "/home/user" "/data/proj/nb.ipynb"
      = dirname "/data/proj/nb.ipynb" :=
  (start_server_serving_dir env₀ 0 1 ⟨[]⟩ "/data/proj/nb.ipynb").2.2.2.1
    (by decide)

/-- Requests issued by `shutdown_all_servers`: one per `RUNNING` entry,
in order, carrying that entry's `server_info`. -/
theorem shutdown_requests_eq (l : List ServerProcess) :
    (l.flatMap fun s => (shutdown_one s).2) =
      (l.filter fun s => s.state == ServerState.RUNNING).map
        (fun s => s.server_info) := by
  induction l with
  | nil => rfl
  | cons a t ih =>
    rw [List.flatMap_cons, ih]
    by_cases h : a.state = ServerState.RUNNING <;>
      simp [shutdown_one, h, List.filter_cons]

/-- C9: `shutdown_all_servers` maps every `RUNNING` entry to the same
entry with state `FINISHED`, leaves every entry in any other state
exactly as it was, removes nothing (the image is a `map`, so lengths
agree position by position), and issues exactly one shutdown request per
`RUNNING` entry, carrying that entry's `server_info`. -/
theorem shutdown_all_servers_spec (m : Manager) :
    (shutdown_all_servers m).1.servers =
      m.servers.map (fun s =>
        if s.state = ServerState.RUNNING
        then { s with state := ServerState.FINISHED } else s) ∧
    (shutdown_all_servers m).1.servers.length = m.servers.length ∧
    (shutdown_all_servers m).2 =
      (m.servers.filter fun s => s.state == ServerState.RUNNING).map
        (fun s => s.server_info) ∧
    (shutdown_all_servers m).2.length =
      (m.servers.filter fun s => s.state == ServerState.RUNNING).length := by
  have hreq := shutdown_requests_eq m.servers
  have hmap : (fun s => (shutdown_one s).1) =
      (fun s : ServerProcess =>
        if s.state = ServerState.RUNNING
        then { s with state := ServerState.FINISHED } else s) := by
    funext s
    by_cases h : s.state = ServerState.RUNNING <;> simp [shutdown_one, h]
  refine ⟨?_, ?_, ?_, ?_⟩
  · simp [shutdown_all_servers, hmap]
  · simp [shutdown_all_servers]
  · simpa [shutdown_all_servers] using hreq
  · simp [shutdown_all_servers, hreq]

/-- A second application of the per-entry shutdown step is the identity
and issues no request: the first application leaves no entry `RUNNING`. -/
theorem shutdown_one_idem (s : ServerProcess) :
    shutdown_one (shutdown_one s).1 = ((shutdown_one s).1, []) := by
  by_cases h : s.state = ServerState.RUNNING <;> simp [shutdown_one, h]

/-- List-level form of the idempotence of `shutdown_all_servers`. -/
theorem shutdown_twice_list (l : List ServerProcess) :
    ((l.map fun s => (shutdown_one s).1).map fun s => (shutdown_one s).1) =
      (l.map fun s => (shutdown_one s).1) ∧
    ((l.map fun s => (shutdown_one s).1).flatMap
        fun s => (shutdown_one s).2) = [] := by
  induction l with
  | nil => exact ⟨rfl, rfl⟩
  | cons a t ih =>
    constructor
    · simp only [List.map_cons, ih.1,
        congrArg Prod.fst (shutdown_one_idem a)]
    · simp only [List.map_cons, List.flatMap_cons, ih.2,
        congrArg Prod.snd (shutdown_one_idem a), List.nil_append]

/-- C10: `shutdown_all_servers` is idempotent: a second call issues no
shutdown requests and leaves every entry (state and `server_info`)
unchanged, because the first call leaves no entry `RUNNING`. -/
theorem shutdown_all_servers_idem (m : Manager) :
    shutdown_all_servers (shutdown_all_servers m).1 =
      ((shutdown_all_servers m).1, []) := by
  have h := shutdown_twice_list m.servers
  simp only [shutdown_all_servers] at h ⊢
  rw [h.1, h.2]

/-- C2 counterexample: at a tick where the descriptor file exists but
fails to parse, `_check_server_started` raises instead of rescheduling:
the tick's result is an uncaught exception (`Except.error`), unlike the
absent-file tick at the same instant, which reschedules; the polling run
on an always-malformed descriptor dies at its first tick with no retry
and no state change. -/
theorem malformed_descriptor_raises_cex :
    check_server_started ProbeResult.parse_error 0 spW = Except.error () ∧
    check_server_started ProbeResult.os_error 0 spW =
      Except.ok (spW, [Event.schedule_check 250],
        TickResult.rescheduled 250) ∧
    run_checks (fun _ => ProbeResult.parse_error) 0 200 spW =
      (RunOutcome.exn 0, spW, []) := by
  refine ⟨rfl, rfl, rfl⟩

/-- C2 (amended): a malformed descriptor is treated differently from an
absent one: the `try` block catches only `OSError`, so the parse
exception propagates out of the tick to its caller, while an absent file
within the timeout budget triggers the retry (reschedule) path. -/
theorem malformed_descriptor_raises (now : Nat) (sp : ServerProcess) :
    check_server_started ProbeResult.parse_error now sp
      = Except.error () ∧
    (now - sp.starttime ≤ SERVER_TIMEOUT_DELAY * 1000 →
      check_server_started ProbeResult.os_error now sp =
        Except.ok (sp, [Event.schedule_check CHECK_SERVER_UP_DELAY],
          TickResult.rescheduled CHECK_SERVER_UP_DELAY)) := by
  refine ⟨rfl, fun h => ?_⟩
  have hn : ¬ (now - sp.starttime > SERVER_TIMEOUT_DELAY * 1000) :=
    not_lt.mpr h
  simp [check_server_started, hn]

/-- Witness for C2's amended theorem at time 0 on a fresh process. -/
theorem malformed_descriptor_raises_witness :
    check_server_started ProbeResult.os_error 0 spW =
      Except.ok (spW, [Event.schedule_check CHECK_SERVER_UP_DELAY],
        TickResult.rescheduled CHECK_SERVER_UP_DELAY) :=
  (malformed_descriptor_raises 0 spW).2 (by decide)

/-- The data invariant that actually holds of the manager's entries:
`server_info` is populated only in the `RUNNING` and `FINISHED` states
(the `FINISHED` case arises because `shutdown_all_servers` does not clear
`server_info`). -/
def InfoInv (m : Manager) : Prop :=
  ∀ sp ∈ m.servers, sp.server_info ≠ none →
    sp.state = ServerState.RUNNING ∨ sp.state = ServerState.FINISHED

/-- The empty manager satisfies the invariant. -/
theorem InfoInv_empty : InfoInv ⟨[]⟩ := by
  intro sp hmem
  simp at hmem

/-- `start_server` preserves the invariant: the appended entry is
`STARTING` with no `server_info`. -/
theorem InfoInv_start_server (env : Env) (now pid : Nat) (m : Manager)
    (f : String) (hm : InfoInv m) :
    InfoInv (start_server env now pid m f).1 := by
  intro sp hmem hinfo
  simp only [start_server, List.mem_append, List.mem_singleton] at hmem
  rcases hmem with hmem | rfl
  · exact hm sp hmem hinfo
  · simp at hinfo

/-- One readiness check preserves the per-entry invariant when applied,
as in the source, to an entry still in `STARTING` state (which by the
invariant has no `server_info`). -/
theorem check_preserves_entry (pr : ProbeResult) (now : Nat)
    (sp sp' : ServerProcess) (evs : List Event) (tr : TickResult)
    (hi : sp.server_info = none)
    (hok : check_server_started pr now sp = Except.ok (sp', evs, tr)) :
    sp'.server_info ≠ none →
      sp'.state = ServerState.RUNNING ∨ sp'.state = ServerState.FINISHED := by
  intro hinfo
  cases pr with
  | ok info =>
    simp only [check_server_started, Except.ok.injEq, Prod.mk.injEq] at hok
    obtain ⟨rfl, -, -⟩ := hok
    left
    rfl
  | os_error =>
    by_cases ht : now - sp.starttime > SERVER_TIMEOUT_DELAY * 1000
    · simp only [check_server_started, if_pos ht, Except.ok.injEq,
        Prod.mk.injEq] at hok
      obtain ⟨rfl, -, -⟩ := hok
      exact absurd hi hinfo
    · simp only [check_server_started, if_neg ht, Except.ok.injEq,
        Prod.mk.injEq] at hok
      obtain ⟨rfl, -, -⟩ := hok
      exact absurd hi hinfo
  | parse_error => simp [check_server_started] at hok

/-- A polling tick on a `STARTING` entry preserves the invariant. -/
theorem InfoInv_check_in (pr : ProbeResult) (now : Nat) (m : Manager)
    (i : Nat) (m' : Manager) (evs : List Event) (hm : InfoInv m)
    (hstarting : ∀ sp, m.servers.get? i = some sp →
      sp.state = ServerState.STARTING)
    (hok : check_server_started_in pr now m i = Except.ok (m', evs)) :
    InfoInv m' := by
  cases hg : m.servers.get? i with
  | none =>
    simp only [check_server_started_in, hg, Except.ok.injEq,
      Prod.mk.injEq] at hok
    obtain ⟨rfl, -⟩ := hok
    exact hm
  | some sp0 =>
    have hs0 : sp0.state = ServerState.STARTING := hstarting sp0 hg
    have hi0 : sp0.server_info = none := by
      by_contra h
      rcases hm sp0 (List.get?_mem hg) h with h' | h' <;> rw [hs0] at h' <;>
        exact ServerState.noConfusion h'
    simp only [check_server_started_in, hg] at hok
    cases hck : check_server_started pr now sp0 with
    | error e => rw [hck] at hok; simp [Except.map] at hok
    | ok r =>
      rw [hck] at hok
      simp only [Except.map, Except.ok.injEq, Prod.mk.injEq] at hok
      obtain ⟨rfl, -⟩ := hok
      intro sp hmem hinfo
      rcases List.mem_or_eq_of_mem_set hmem with h | rfl
      · exact hm sp h hinfo
      · exact check_preserves_entry pr now sp0 r.1 r.2.1 r.2.2 hi0
          (by rw [hck]) hinfo

/-- `shutdown_all_servers` preserves the invariant: entries it touches
move from `RUNNING` to `FINISHED` keeping their `server_info`. -/
theorem InfoInv_shutdown (m : Manager) (hm : InfoInv m) :
    InfoInv (shutdown_all_servers m).1 := by
  intro sp hmem hinfo
  simp only [shutdown_all_servers, List.mem_map] at hmem
  obtain ⟨s0, hs0, rfl⟩ := hmem
  by_cases h : s0.state = ServerState.RUNNING
  · right
    simp [shutdown_one, h]
  · have : (shutdown_one s0).1 = s0 := by simp [shutdown_one, h]
    rw [this] at hinfo ⊢
    exact hm s0 hs0 hinfo

/-- `get_server` preserves the invariant: it either answers from the
scan, leaving the manager unchanged, or delegates to `start_server`. -/
theorem InfoInv_get_server (env : Env) (now pid : Nat) (m : Manager)
    (f : String) (st : Bool) (hm : InfoInv m) :
    InfoInv (get_server env now pid m f st).2.1 := by
  rw [get_server]
  cases scan_servers (abspath env.cwd f) m.servers with
  | some r => exact hm
  | none =>
    cases st with
    | false => exact hm
    | true => exact InfoInv_start_server env now pid m _ hm

/-- C3 (amended): across every operation of the manager — the empty
initial state, `start_server`, readiness ticks on `STARTING` entries,
`shutdown_all_servers` and `get_server` — each entry satisfies:
`server_info` is `none` unless the state is `RUNNING` **or `FINISHED`**;
the `FINISHED` disjunct is required because `shutdown_all_servers` keeps
`server_info` when flipping a `RUNNING` entry to `FINISHED`. -/
theorem server_info_state_invariant :
    InfoInv ⟨[]⟩ ∧
    (∀ env now pid m f, InfoInv m →
      InfoInv (start_server env now pid m f).1) ∧
    (∀ pr now m i m' evs, InfoInv m →
      (∀ sp, m.servers.get? i = some sp →
        sp.state = ServerState.STARTING) →
      check_server_started_in pr now m i = Except.ok (m', evs) →
      InfoInv m') ∧
    (∀ m, InfoInv m → InfoInv (shutdown_all_servers m).1) ∧
    (∀ env now pid m f st, InfoInv m →
      InfoInv (get_server env now pid m f st).2.1) :=
  ⟨InfoInv_empty,
   fun env now pid m f hm => InfoInv_start_server env now pid m f hm,
   fun pr now m i m' evs hm hs hok =>
     InfoInv_check_in pr now m i m' evs hm hs hok,
   fun m hm => InfoInv_shutdown m hm,
   fun env now pid m f st hm => InfoInv_get_server env now pid m f st hm⟩

/-- Witness for C3's amended theorem: the invariant holds after shutting
down a manager with one `RUNNING` server holding info. -/
theorem server_info_state_invariant_witness :
    InfoInv (shutdown_all_servers
      ⟨[⟨1, "/d", 0, ServerState.RUNNING, some sampleInfo⟩]⟩).1 :=
  server_info_state_invariant.2.2.2.1
    ⟨[⟨1, "/d", 0, ServerState.RUNNING, some sampleInfo⟩]⟩
    (by unfold InfoInv; decide)

/-- C3 counterexample: a reachable history — start a server for
`/d/nb.ipynb`, let its readiness check succeed, then call
`shutdown_all_servers` — leaves the single entry in state `FINISHED`
with `server_info` still populated, so `server_info = none unless
RUNNING` fails after shutdown. -/
theorem shutdown_keeps_server_info_cex :
    ((check_server_started_in (ProbeResult.ok sampleInfo) 0
        (start_server env₀ 0 1 ⟨[]⟩ "/d/nb.ipynb").1 0).toOption.map
      (fun p => (shutdown_all_servers p.1).1.servers.map
        (fun s => (s.state, s.server_info))))
      = some [(ServerState.FINISHED, some sampleInfo)] ∧
    ServerState.FINISHED ≠ ServerState.RUNNING ∧
    (some sampleInfo : Option ServerInfo) ≠ none := by
  refine ⟨by decide, by decide, by decide⟩

/-- C5: for an entry whose descriptor file is absent at every tick (the
probe always reports `os_error`, i.e. "not ready"), the polling loop
started at the entry's `starttime` reschedules 121 times and then, at
elapsed time 30250 ms — after the 30 s budget but within one 250 ms
polling interval of it — sets the state to `TIMED_OUT` and emits
`sig_server_timed_out` exactly once, scheduling no further tick (the
trace ends at the transition and no `started` signal is ever emitted). -/
theorem run_checks_never_ready_times_out (probe : Nat → ProbeResult)
    (hp : ∀ t, probe t = ProbeResult.os_error) :
    run_checks probe 0 200 spW =
      (RunOutcome.timed_out 30250,
       ⟨1, "/d", 0, ServerState.TIMED_OUT, none⟩,
       List.replicate 121 (Event.schedule_check 250) ++
         [Event.set_state ServerState.TIMED_OUT,
          Event.emit Signal.server_timed_out]) ∧
    SERVER_TIMEOUT_DELAY * 1000 < 30250 - spW.starttime ∧
    30250 - spW.starttime ≤
      SERVER_TIMEOUT_DELAY * 1000 + CHECK_SERVER_UP_DELAY ∧
    (run_checks probe 0 200 spW).2.2.count
      (Event.emit Signal.server_timed_out) = 1 ∧
    (run_checks probe 0 200 spW).2.2.count
      (Event.emit Signal.server_started) = 0 := by
  have hfn : probe = fun _ => ProbeResult.os_error := funext hp
  subst hfn
  exact ⟨by decide, by decide, by decide, by decide, by decide⟩

/-- Witness for C5 with the constantly-absent probe. -/
theorem run_checks_never_ready_times_out_witness :
    run_checks (fun _ => ProbeResult.os_error) 0 200 spW =
      (RunOutcome.timed_out 30250,
       ⟨1, "/d", 0, ServerState.TIMED_OUT, none⟩,
       List.replicate 121 (Event.schedule_check 250) ++
         [Event.set_state ServerState.TIMED_OUT,
          Event.emit Signal.server_timed_out]) :=
  (run_checks_never_ready_times_out (fun _ => ProbeResult.os_error)
    (fun _ => rfl)).1

/-- The polling loop when the descriptor parses at tick `k`: the first
`k` ticks reschedule and tick `k` commits the `RUNNING` transition,
fills `server_info`, and emits `sig_server_started`, ending the loop. -/
theorem run_checks_success_aux (info : ServerInfo) :
    ∀ (k : Nat) (probe : Nat → ProbeResult) (now fuel : Nat)
      (sp : ServerProcess),
    (∀ j, j < k →
      probe (now + CHECK_SERVER_UP_DELAY * j) = ProbeResult.os_error) →
    probe (now + CHECK_SERVER_UP_DELAY * k) = ProbeResult.ok info →
    now + CHECK_SERVER_UP_DELAY * k - sp.starttime ≤
      SERVER_TIMEOUT_DELAY * 1000 →
    k < fuel →
    run_checks probe now fuel sp =
      (RunOutcome.running (now + CHECK_SERVER_UP_DELAY * k),
       { sp with state := ServerState.RUNNING, server_info := some info },
       List.replicate k (Event.schedule_check CHECK_SERVER_UP_DELAY) ++
         [Event.set_state ServerState.RUNNING, Event.set_server_info info,
          Event.emit Signal.server_started]) := by
  intro k
  induction k with
  | zero =>
    intro probe now fuel sp hj hk hb hf
    cases fuel with
    | zero => omega
    | succ f =>
      simp only [Nat.mul_zero, Nat.add_zero] at hk ⊢
      simp [run_checks, hk, check_server_started]
  | succ k ih =>
    intro probe now fuel sp hj hk hb hf
    cases fuel with
    | zero => omega
    | succ f =>
      have h0 : probe now = ProbeResult.os_error := by
        have h := hj 0 (Nat.succ_pos k)
        simpa using h
      have hble : now - sp.starttime ≤ SERVER_TIMEOUT_DELAY * 1000 :=
        le_trans (Nat.sub_le_sub_right (Nat.le_add_right _ _) _) hb
      have hnt : ¬ (now - sp.starttime > SERVER_TIMEOUT_DELAY * 1000) :=
        not_lt.mpr hble
      have harith : now + CHECK_SERVER_UP_DELAY * (k + 1) =
          now + CHECK_SERVER_UP_DELAY + CHECK_SERVER_UP_DELAY * k := by
        ring
      have hrec := ih probe (now + CHECK_SERVER_UP_DELAY) f sp
        (fun j hjk => by
          have h := hj (j + 1) (Nat.succ_lt_succ hjk)
          rw [show now + CHECK_SERVER_UP_DELAY * (j + 1) =
              now + CHECK_SERVER_UP_DELAY + CHECK_SERVER_UP_DELAY * j from
            by ring] at h
          exact h)
        (by rw [harith] at hk; exact hk)
        (by rw [harith] at hb; exact hb)
        (by omega)
      simp only [run_checks, h0, check_server_started, if_neg hnt]
      rw [hrec]
      simp [harith, List.replicate_succ]

/-- C6: if the readiness probe reports "not ready" for the first `k`
ticks and returns parsed metadata `info` at tick `k`, still within the
30 s budget, then the polling loop for a fresh `STARTING` entry ends at
tick `k`: the trace shows the `RUNNING` state transition and the
`server_info` assignment committed before the single
`sig_server_started` emission, and nothing is scheduled afterwards. -/
theorem run_checks_success_runs (probe : Nat → ProbeResult) (k : Nat)
    (info : ServerInfo) (pid : Nat) (dir : String)
    (hj : ∀ j, j < k →
      probe (CHECK_SERVER_UP_DELAY * j) = ProbeResult.os_error)
    (hk : probe (CHECK_SERVER_UP_DELAY * k) = ProbeResult.ok info)
    (hb : CHECK_SERVER_UP_DELAY * k ≤ SERVER_TIMEOUT_DELAY * 1000) :
    run_checks probe 0 200 ⟨pid, dir, 0, ServerState.STARTING, none⟩ =
      (RunOutcome.running (CHECK_SERVER_UP_DELAY * k),
       ⟨pid, dir, 0, ServerState.RUNNING, some info⟩,
       List.replicate k (Event.schedule_check CHECK_SERVER_UP_DELAY) ++
         [Event.set_state ServerState.RUNNING, Event.set_server_info info,
          Event.emit Signal.server_started]) := by
  have hfuel : k < 200 := by
    simp only [CHECK_SERVER_UP_DELAY, SERVER_TIMEOUT_DELAY] at hb
    omega
  have h := run_checks_success_aux info k probe 0 200
    ⟨pid, dir, 0, ServerState.STARTING, none⟩
    (fun j hjk => by simpa using hj j hjk)
    (by simpa using hk)
    (by simpa using hb)
    hfuel
  simpa using h

/-- Witness for C6: a probe whose descriptor parses at the third check
(t = 500 ms). -/
theorem run_checks_success_runs_witness :
    run_checks
      (fun t => if t = 500 then ProbeResult.ok sampleInfo
        else ProbeResult.os_error) 0 200
      ⟨1, "/d", 0, ServerState.STARTING, none⟩ =
      (RunOutcome.running (CHECK_SERVER_UP_DELAY * 2),
       ⟨1, "/d", 0, ServerState.RUNNING, some sampleInfo⟩,
       List.replicate 2 (Event.schedule_check CHECK_SERVER_UP_DELAY) ++
         [Event.set_state ServerState.RUNNING,
          Event.set_server_info sampleInfo,
          Event.emit Signal.server_started]) :=
  run_checks_success_runs
    (fun t => if t = 500 then ProbeResult.ok sampleInfo
      else ProbeResult.os_error)
    2 sampleInfo 1 "/d" (by decide) (by decide) (by decide)

/-- Repeated `get_server` calls for the same filename: each call may
update the manager, and the spawned processes are collected. -/
def get_server_iter (env : Env) (now pid : Nat) (filename : String)
    (start : Bool) : Nat → Manager → Manager × List SpawnedProcess
  | 0, m => (m, [])
  | n + 1, m =>
    let r := get_server env now pid m filename start
    let rest := get_server_iter env now pid filename start n r.2.1
    (rest.1, r.2.2.toList ++ rest.2)

/-- If some `RUNNING` or `STARTING` entry's `notebook_dir` is a string
prefix of the filename, the `get_server` scan answers (it cannot fall
through to the launch branch). -/
theorem scan_servers_isSome_of_active (fn : String)
    (l : List ServerProcess) (sp : ServerProcess) (hmem : sp ∈ l)
    (hpre : startswith fn sp.notebook_dir = true)
    (hact : sp.state = ServerState.RUNNING ∨
      sp.state = ServerState.STARTING) :
    (scan_servers fn l).isSome = true := by
  induction l with
  | nil => cases hmem
  | cons a t ih =>
    rcases List.mem_cons.mp hmem with rfl | hmem'
    · rcases hact with h | h <;> simp [scan_servers, hpre, h]
    · by_cases hp : startswith fn a.notebook_dir
      · by_cases hR : a.state = ServerState.RUNNING
        · simp [scan_servers, hp, hR]
        · by_cases hS : a.state = ServerState.STARTING
          · simp [scan_servers, hp, hR, hS]
          · simpa [scan_servers, hp, hR, hS] using ih hmem'
      · simpa [scan_servers, hp] using ih hmem'

/-- C7: while the manager holds a `STARTING` entry whose `notebook_dir`
is a (string) prefix of the normalized filename, any number of repeated
`get_server` calls for that filename leaves the manager unchanged and
spawns no process: `start_server` is never reached, so no duplicate
server for that serving directory can be created this way. -/
theorem get_server_starting_no_duplicate_spawn (env : Env)
    (now pid : Nat) (m : Manager) (f : String) (sp : ServerProcess)
    (hmem : sp ∈ m.servers)
    (hstate : sp.state = ServerState.STARTING)
    (hpre : startswith (abspath env.cwd f) sp.notebook_dir = true) :
    ∀ (n : Nat) (st : Bool),
      get_server_iter env now pid f st n m = (m, []) := by
  have hsome := scan_servers_isSome_of_active (abspath env.cwd f)
    m.servers sp hmem hpre (Or.inr hstate)
  obtain ⟨r, hr⟩ := Option.isSome_iff_exists.mp hsome
  have hsingle : ∀ st, get_server env now pid m f st = (r, m, none) := by
    intro st
    simp [get_server, hr]
  intro n
  induction n with
  | zero => intro st; rfl
  | succ n ih =>
    intro st
    simp only [get_server_iter]
    simp [hsingle st, ih st]

/-- Witness for C7: three repeated calls against a manager with one
`STARTING` entry for `/s` spawn nothing and change nothing. -/
theorem get_server_starting_no_duplicate_spawn_witness :
    get_server_iter env₀ 0 9 "/s/f" true 3
      ⟨[⟨1, "/s", 0, ServerState.STARTING, none⟩]⟩ =
      (⟨[⟨1, "/s", 0, ServerState.STARTING, none⟩]⟩, []) :=
  get_server_starting_no_duplicate_spawn env₀ 0 9
    ⟨[⟨1, "/s", 0, ServerState.STARTING, none⟩]⟩ "/s/f"
    ⟨1, "/s", 0, ServerState.STARTING, none⟩
    (by decide) rfl (by decide) 3 true

end ServerManagerSpec
